import Mathlib

/-!
Verification development for the quick_tag resource-tagging utility.

The definitions below are a shallow embedding of the program's core logic:
the name-pattern classifier, the ELB-name extractor, the ENI attachment
resolver, the three resource scanners with their name-suggestion passes,
the tag applier, and the undo executor.  Go strings are modelled as Lean
`String` values and the Go `strings` package operations used by the code
are re-implemented structurally over `List Char` (ASCII case folding;
lengths are character counts, which coincide with Go byte lengths on the
ASCII data these functions are applied to).
-/

/-- ASCII lower-casing of a single character, as Go `strings.ToLower`
behaves on ASCII input. -/
def charToLower (c : Char) : Char :=
  if 65 ≤ c.toNat && c.toNat ≤ 90 then Char.ofNat (c.toNat + 32) else c

/-- Go `strings.ToLower` (ASCII fragment). -/
def toLowerStr (s : String) : String :=
  ⟨s.data.map charToLower⟩

/-- List-level test that `p` is a leading segment of `l`. -/
def listStartsWith : List Char → List Char → Bool
  | [], _ => true
  | _ :: _, [] => false
  | p :: ps, c :: cs => p == c && listStartsWith ps cs

/-- Go `strings.HasPrefix`. -/
def goStartsWith (s pre : String) : Bool :=
  listStartsWith pre.data s.data

/-- Go `strings.HasSuffix`. -/
def goEndsWith (s suf : String) : Bool :=
  listStartsWith suf.data.reverse s.data.reverse

/-- List-level test that `sub` occurs contiguously somewhere in the list. -/
def listHasInfix (sub : List Char) : List Char → Bool
  | [] => listStartsWith sub []
  | c :: cs => listStartsWith sub (c :: cs) || listHasInfix sub cs

/-- Go `strings.Contains`. -/
def goContains (s sub : String) : Bool :=
  listHasInfix sub.data s.data

/-- Go `strings.TrimPrefix`: drops the leading segment when present. -/
def goTrimStart (s pre : String) : String :=
  if goStartsWith s pre then ⟨s.data.drop pre.data.length⟩ else s

/-- Accumulator loop for splitting a character list at every occurrence of
`sep`; `acc` holds the current field reversed. -/
def splitCharAux (sep : Char) : List Char → List Char → List (List Char)
  | [], acc => [acc.reverse]
  | c :: cs, acc =>
    if c == sep then acc.reverse :: splitCharAux sep cs []
    else splitCharAux sep cs (c :: acc)

/-- Go `strings.Split` with a single-character separator. -/
def goSplitChar (s : String) (sep : Char) : List String :=
  (splitCharAux sep s.data []).map (fun l => ⟨l⟩)

/-- Accumulator loop for `goSplitN3`: `k` is the number of cuts still
allowed; once it reaches zero the remainder is kept whole. -/
def splitNCharAux (sep : Char) : Nat → List Char → List Char → List (List Char)
  | 0, l, acc => [acc.reverse ++ l]
  | _ + 1, [], acc => [acc.reverse]
  | k + 1, c :: cs, acc =>
    if c == sep then acc.reverse :: splitNCharAux sep k cs []
    else splitNCharAux sep (k + 1) cs (c :: acc)

/-- Go `strings.SplitN(s, sep, 3)` with a single-character separator:
at most three fields, the last one holding the unsplit remainder. -/
def goSplitN3 (s : String) (sep : Char) : List String :=
  (splitNCharAux sep 2 s.data []).map (fun l => ⟨l⟩)

/-- ASCII whitespace, as recognised by Go `strings.Fields`. -/
def isSpaceChar (c : Char) : Bool :=
  c == ' ' || c == '\t' || c == '\n' || c == '\r' || c == '\x0b' || c == '\x0c'

/-- Accumulator loop for `goFields`; `acc` holds the current field
reversed, empty fields are never emitted. -/
def fieldsAux : List Char → List Char → List (List Char)
  | [], acc => if acc.isEmpty then [] else [acc.reverse]
  | c :: cs, acc =>
    if isSpaceChar c then
      (if acc.isEmpty then fieldsAux cs [] else acc.reverse :: fieldsAux cs [])
    else fieldsAux cs (c :: acc)

/-- Go `strings.Fields`: split on runs of whitespace, dropping empties. -/
def goFields (s : String) : List String :=
  (fieldsAux s.data []).map (fun l => ⟨l⟩)

/-- `isQuickTagCreatedName` from main.go: recognises, per resource kind,
the name shapes this tool itself produces or provider defaults. -/
def isQuickTagCreatedName (name resourceType : String) : Bool :=
  if resourceType == "instance" then
    goStartsWith name "instance-ami-" ||
    goStartsWith name "unknown-instance"
  else if resourceType == "volume" then
    name == "unattached" ||
    goStartsWith name "unattached-" ||
    goStartsWith name "unknown-"
  else if resourceType == "eni" then
    name == "unattached-eni" ||
    (goStartsWith name "service-" && goEndsWith name "-eni") ||
    (goStartsWith name "attached-" && goEndsWith name "-eni") ||
    (goStartsWith name "lambda-" && goEndsWith name "-eni") ||
    (goStartsWith name "rds-" && goEndsWith name "-eni") ||
    (goStartsWith name "elasticache-" && goEndsWith name "-eni") ||
    (goStartsWith name "elb-" && goEndsWith name "-eni") ||
    (goStartsWith name "nat-" && goEndsWith name "-eni") ||
    goStartsWith name "rds-eni-attach-" ||
    goStartsWith name "elasticache-eni-attach-" ||
    goStartsWith name "elb-eni-attach-" ||
    goStartsWith name "lambda-eni-attach-" ||
    goStartsWith name "nat-eni-attach-" ||
    goStartsWith name "service-eni-attach-" ||
    goStartsWith name "rds-ela-attach-" ||
    goStartsWith name "elasticache-ela-attach-" ||
    goStartsWith name "elb-ela-attach-" ||
    goStartsWith name "lambda-ela-attach-" ||
    goStartsWith name "nat-ela-attach-" ||
    goStartsWith name "service-ela-attach-" ||
    (goContains name "-attach-" && goEndsWith name "-eni") ||
    (goStartsWith name "eni-" && decide (21 ≤ name.length) && decide (name.length ≤ 25)) ||
    name == "" ||
    goStartsWith name "Network interface" ||
    (goContains name "primary" && goContains name "interface")
  else false

/-- `isQuickTagNameStillValid` from main.go: a self-generated name is
checked against the resource's current state and extra info; any other
name is always valid. -/
def isQuickTagNameStillValid (name resourceType currentState extraInfo : String) : Bool :=
  if !isQuickTagCreatedName name resourceType then true
  else if resourceType == "instance" then true
  else if resourceType == "volume" then
    (if name == "unattached" then
      currentState == "available" || extraInfo == "unattached"
    else if goStartsWith name "unattached-" then
      currentState == "available" || extraInfo == "unattached"
    else true)
  else if resourceType == "eni" then
    (if name == "unattached-eni" then extraInfo == "unattached"
    else if goStartsWith name "unattached-" then extraInfo == "unattached"
    else if goContains name "-eni" then extraInfo != "unattached"
    else true)
  else true

/-- Token-pair loop of `extractELBName`: walks the whitespace fields,
and after a field case-insensitively equal to `elb` splits the next field
on `/`, returning segment 1 when there are at least two segments and
otherwise continuing the walk. -/
def elbScan : List String → String
  | [] => ""
  | [_] => ""
  | p :: q :: rest =>
    if toLowerStr p == "elb" then
      (if 2 ≤ (goSplitChar q '/').length then (goSplitChar q '/').getD 1 ""
       else elbScan (q :: rest))
    else elbScan (q :: rest)

/-- `extractELBName` from main.go. -/
def extractELBName (description : String) : String :=
  elbScan (goFields description)

/-- An ENI attachment as read from the provider: either or both ids may
be absent. -/
structure ENIAttachment where
  instanceId : Option String
  attachmentId : Option String
deriving DecidableEq

/-- A network interface record as read from the provider (the fields the
program consults). -/
structure NetworkInterface where
  networkInterfaceId : String
  status : String
  description : Option String
  attachment : Option ENIAttachment
  tagSet : List (Option String × Option String)
deriving DecidableEq

/-- One attachment of a volume. -/
structure VolumeAttachment where
  instanceId : Option String
  device : Option String
deriving DecidableEq

/-- A volume record as read from the provider. -/
structure VolumeRec where
  volumeId : String
  state : String
  attachments : List VolumeAttachment
  tags : List (Option String × Option String)
deriving DecidableEq

/-- An instance record as read from the provider. -/
structure InstanceRec where
  instanceId : String
  stateName : String
  imageId : Option String
  tags : List (Option String × Option String)
deriving DecidableEq

/-- `ResourceInfo` from main.go (the Go field `Type` is `resType` here,
since `Type` is reserved in Lean). -/
structure ResourceInfo where
  ID : String
  resType : String
  Name : String
  SuggestedName : String
  State : String
  Extra : String
deriving DecidableEq

/-- The Name-tag scan loop shared by all three finders: the first tag
whose key is present and equal to `Name` and whose value is present
yields that value; tags failing any of the three checks are skipped. -/
def findNameTag : List (Option String × Option String) → Option String
  | [] => none
  | (some "Name", some v) :: _ => some v
  | _ :: rest => findNameTag rest

/-- `getENIAttachmentInfo` from main.go: normalises an ENI's attachment
facts into the `Extra` token, inferring a service type from the
description for service attachments and preferring an extracted ELB name
for load balancers. -/
def getENIAttachmentInfo (eni : NetworkInterface) : String :=
  match eni.attachment with
  | none => "unattached"
  | some att =>
    match att.instanceId with
    | some iid => "attached-to-" ++ iid
    | none =>
      match att.attachmentId with
      | none => "attached-unknown"
      | some aid =>
        match eni.description with
        | none => "attached-service-" ++ aid
        | some d =>
          let desc := toLowerStr d
          if goContains desc "lambda" then "attached-lambda-" ++ aid
          else if goContains desc "rds" then "attached-rds-" ++ aid
          else if goContains desc "elasticache" || goContains desc "cache" then
            "attached-elasticache-" ++ aid
          else if goContains desc "elb" || goContains desc "load balancer" then
            (let elbName := extractELBName d
             if elbName != "" then "attached-elb-" ++ elbName
             else "attached-elb-" ++ aid)
          else if goContains desc "nat" then "attached-nat-" ++ aid
          else "attached-service-" ++ aid

/-- `getVolumeMountPoint` from main.go. -/
def getVolumeMountPoint (v : VolumeRec) : String :=
  match v.attachments with
  | [] => "unattached"
  | att :: _ => att.device.getD "unknown"

/-- `getVolumeInstanceID` from main.go (the Go code re-reads the volume
from the provider; modelled on the same record, assuming the provider
state is stable within one scan). -/
def getVolumeInstanceID (v : VolumeRec) : String :=
  match v.attachments with
  | [] => ""
  | att :: _ => att.instanceId.getD ""

/-- The per-instance body of the scan loop in `findUntaggedInstances`:
terminated instances are skipped, and an instance is kept when it needs
tagging and carries an AMI id. -/
def scanInstance (inst : InstanceRec) : Option ResourceInfo :=
  if inst.stateName == "terminated" then none
  else
    let nameTag := findNameTag inst.tags
    let hasNameTag := nameTag.isSome
    let currentName := nameTag.getD ""
    let needsTagging := !hasNameTag ||
      (hasNameTag && isQuickTagCreatedName currentName "instance" &&
        !isQuickTagNameStillValid currentName "instance" inst.stateName (inst.imageId.getD ""))
    if needsTagging then
      match inst.imageId with
      | some ami => some ⟨inst.instanceId, "instance", currentName, "", inst.stateName, ami⟩
      | none => none
    else none

/-- The per-volume body of the scan loop in `findUntaggedVolumes`. -/
def scanVolume (v : VolumeRec) : Option ResourceInfo :=
  let nameTag := findNameTag v.tags
  let hasNameTag := nameTag.isSome
  let currentName := nameTag.getD ""
  let needsTagging := !hasNameTag ||
    (hasNameTag && isQuickTagCreatedName currentName "volume" &&
      !isQuickTagNameStillValid currentName "volume" v.state (getVolumeMountPoint v))
  if needsTagging then
    some ⟨v.volumeId, "volume", currentName, "", v.state, getVolumeMountPoint v⟩
  else none

/-- The per-ENI body of the scan loop in `findUntaggedENIs`. -/
def scanENI (eni : NetworkInterface) : Option ResourceInfo :=
  let nameTag := findNameTag eni.tagSet
  let hasNameTag := nameTag.isSome
  let currentName := nameTag.getD ""
  let needsTagging := !hasNameTag ||
    (hasNameTag && isQuickTagCreatedName currentName "eni" &&
      !isQuickTagNameStillValid currentName "eni" eni.status (getENIAttachmentInfo eni))
  if needsTagging then
    some ⟨eni.networkInterfaceId, "eni", currentName, "", eni.status, getENIAttachmentInfo eni⟩
  else none

/-- The suggestion pass of `findUntaggedInstances`: the AMI's name when
the lookup succeeded, else `instance-<amiId>`. -/
def suggestInstance (amiNames : String → Option String) (r : ResourceInfo) : ResourceInfo :=
  match amiNames r.Extra with
  | some amiName => { r with SuggestedName := amiName }
  | none => { r with SuggestedName := "instance-" ++ r.Extra }

/-- The suggestion pass of `findUntaggedVolumes`, applied to the scan
result of one volume record. -/
def suggestVolume (instanceNames : String → Option String) (v : VolumeRec)
    (r : ResourceInfo) : ResourceInfo :=
  let attachedInstanceID := getVolumeInstanceID v
  if attachedInstanceID != "" then
    match instanceNames attachedInstanceID with
    | some n =>
      { r with SuggestedName := attachedInstanceID ++ "(" ++ n ++ ") " ++ r.Extra }
    | none => { r with SuggestedName := attachedInstanceID ++ " " ++ r.Extra }
  else { r with SuggestedName := "unattached" }

/-- The suggestion pass of `findUntaggedENIs`: rewrites the suggested
name and the displayed `Extra` from the attachment token. -/
def suggestENI (attachmentNames : String → Option String) (r : ResourceInfo) : ResourceInfo :=
  if goStartsWith r.Extra "attached-to-" then
    let instanceID := goTrimStart r.Extra "attached-to-"
    match attachmentNames instanceID with
    | some n =>
      { r with SuggestedName := n ++ "-eni", Extra := instanceID ++ " (" ++ n ++ ")" }
    | none => { r with SuggestedName := instanceID ++ "-eni", Extra := instanceID }
  else if goStartsWith r.Extra "attached-" then
    let parts := goSplitN3 r.Extra '-'
    if 3 ≤ parts.length then
      let attachmentType := parts.getD 1 ""
      let attachmentID := parts.getD 2 ""
      if attachmentType == "elb" then
        { r with SuggestedName := attachmentID ++ "-eni",
                 Extra := "elb-" ++ attachmentID }
      else
        { r with SuggestedName := attachmentType ++ "-" ++ attachmentID ++ "-eni",
                 Extra := attachmentType ++ "-attachment-" ++ attachmentID }
    else
      let attachmentID := goTrimStart r.Extra "attached-"
      { r with SuggestedName := "service-" ++ attachmentID ++ "-eni",
               Extra := "service-attachment-" ++ attachmentID }
  else
    { r with SuggestedName := "unattached-eni", Extra := "unattached" }

/-- `findUntaggedInstances` from main.go, over provider records and an
abstract AMI-name map. -/
def findUntaggedInstances (recs : List InstanceRec)
    (amiNames : String → Option String) : List ResourceInfo :=
  (recs.filterMap scanInstance).map (suggestInstance amiNames)

/-- `findUntaggedVolumes` from main.go, over provider records and an
abstract instance-name map. -/
def findUntaggedVolumes (recs : List VolumeRec)
    (instanceNames : String → Option String) : List ResourceInfo :=
  recs.filterMap (fun v => (scanVolume v).map (suggestVolume instanceNames v))

/-- `findUntaggedENIs` from main.go, over provider records and an
abstract attachment-name map. -/
def findUntaggedENIs (recs : List NetworkInterface)
    (attachmentNames : String → Option String) : List ResourceInfo :=
  (recs.filterMap scanENI).map (suggestENI attachmentNames)

/-- `TagHistoryEntry` from main.go. -/
structure TagHistoryEntry where
  account : String
  resource : String
  oldValue : String
  newValue : String
  timestamp : String
  runId : String
  undone : Bool
deriving DecidableEq

/-- Result of one `applyTags` run: the resources whose tag write
succeeded (in order), the subset whose history append also succeeded,
the subset whose history append failed (warned only), and the first
resource whose tag write failed, if any. -/
structure ApplyResult where
  tagged : List ResourceInfo
  histAppended : List ResourceInfo
  histWarnings : List ResourceInfo
  failure : Option ResourceInfo
deriving DecidableEq

/-- `applyTags` from main.go, with the provider tag write and the history
append abstracted as success predicates.  A failed tag write stops the
loop at once and is returned as the error; a failed history append after
a successful write only records a warning and the loop continues. -/
def applyTags (tagWrite : ResourceInfo → Bool) (histAppend : ResourceInfo → Bool) :
    List ResourceInfo → ApplyResult
  | [] => ⟨[], [], [], none⟩
  | r :: rest =>
    if tagWrite r then
      let res := applyTags tagWrite histAppend rest
      if histAppend r then
        { res with tagged := r :: res.tagged, histAppended := r :: res.histAppended }
      else
        { res with tagged := r :: res.tagged, histWarnings := r :: res.histWarnings }
    else ⟨[], [], [], some r⟩

/-- Outcome classification of one tag-restore call during undo, as the
Go code derives it from the provider's error text. -/
inductive UndoOutcome where
  | success
  | resourceGone
  | otherError
deriving DecidableEq

/-- The backwards scan of `undoLastRun` that picks the run id of the most
recent history entry not yet undone; the Go code uses the empty string as
the not-found sentinel. -/
def findLastRunId (actions : List TagHistoryEntry) : String :=
  match actions.reverse.find? (fun a => !a.undone) with
  | some a => a.runId
  | none => ""

/-- Point update of the modelled cloud Name-tag state. -/
def updateCloud (cloud : String → Option String) (resource value : String) :
    String → Option String :=
  fun x => if x == resource then some value else cloud x

/-- Accumulated effect of the undo loop: cloud state plus the success /
resource-gone / other-error counters. -/
structure UndoLoopState where
  cloud : String → Option String
  successCount : Nat
  notFoundCount : Nat
  errorCount : Nat

/-- One iteration of the undo loop: restore the entry's old value when
the provider call succeeds, otherwise only bump the matching counter and
continue with the next entry. -/
def undoStep (provider : String → String → UndoOutcome)
    (st : UndoLoopState) (a : TagHistoryEntry) : UndoLoopState :=
  match provider a.resource a.oldValue with
  | .success =>
    { st with cloud := updateCloud st.cloud a.resource a.oldValue,
              successCount := st.successCount + 1 }
  | .resourceGone => { st with notFoundCount := st.notFoundCount + 1 }
  | .otherError => { st with errorCount := st.errorCount + 1 }

/-- Result of a completed (non-cancelled, non-failing) `undoLastRun`. -/
structure UndoResult where
  history : List TagHistoryEntry
  cloud : String → Option String
  saves : Nat
  attempted : List TagHistoryEntry
  successCount : Nat
  notFoundCount : Nat
  errorCount : Nat

/-- `undoLastRun` from main.go, with the confirmation prompt abstracted
as `confirmed`, the provider restore call abstracted as `provider`
(classified as the Go code classifies its error text), and the cloud
Name-tag state carried explicitly.  `saves` counts `saveHistory` calls. -/
def undoLastRun (history : List TagHistoryEntry) (confirmed : Bool)
    (provider : String → String → UndoOutcome) (cloud : String → Option String) :
    Except String UndoResult :=
  if history.length == 0 then .error "no tagging history found"
  else
    let lastRunID := findLastRunId history
    if lastRunID == "" then .error "no undone runs found"
    else
      let actionsToUndo := history.filter (fun a => a.runId == lastRunID && !a.undone)
      if actionsToUndo.length == 0 then
        .error ("no actions found for run " ++ lastRunID)
      else if !confirmed then
        .ok ⟨history, cloud, 0, [], 0, 0, 0⟩
      else
        let final := actionsToUndo.foldl (undoStep provider) ⟨cloud, 0, 0, 0⟩
        let newHistory := history.map (fun a =>
          if a.runId == lastRunID && !a.undone then { a with undone := true } else a)
        .ok ⟨newHistory, final.cloud, 1, actionsToUndo,
             final.successCount, final.notFoundCount, final.errorCount⟩

/-- `addToHistory` from main.go: append one entry with `undone = false`. -/
def addToHistory (history : List TagHistoryEntry)
    (account resource oldValue newValue timestamp runID : String) :
    List TagHistoryEntry :=
  history ++ [⟨account, resource, oldValue, newValue, timestamp, runID, false⟩]

/-- The claims' "needs tagging" gate, written from the spec's words: a
resource needs tagging iff it has no current name, or its current name is
self-generated and no longer valid for the current state and extra info. -/
def claimNeedsTagging (nameTag : Option String) (kind st extra : String) : Bool :=
  nameTag.isNone ||
    (isQuickTagCreatedName (nameTag.getD "") kind &&
      !isQuickTagNameStillValid (nameTag.getD "") kind st extra)

/-- Per-token ELB extraction step from the claim's words: split the token
following `elb` on `/` and take the zero-based segment 1 when there are
at least two segments. -/
def elbTokenResult (tok : String) : Option String :=
  let seg := goSplitChar tok '/'
  if 2 ≤ seg.length then some (seg.getD 1 "") else none

/-- `extractELBName` written from the claim's words: over the whitespace
fields paired with their successors, the first field case-insensitively
equal to `elb` whose successor yields a segment; empty string on
failure. -/
def extractELBNameSpec (description : String) : String :=
  let ps := goFields description
  ((ps.zip ps.tail).findSome? (fun pq =>
    if toLowerStr pq.1 == "elb" then elbTokenResult pq.2 else none)).getD ""

/-- Service-type inference written from the claim's words: case-insensitive
substring search over the description in the precedence lambda, rds,
elasticache|cache, elb|load balancer, nat, defaulting to service. -/
def inferServiceType (d : String) : String :=
  let s := toLowerStr d
  if goContains s "lambda" then "lambda"
  else if goContains s "rds" then "rds"
  else if goContains s "elasticache" || goContains s "cache" then "elasticache"
  else if goContains s "elb" || goContains s "load balancer" then "elb"
  else if goContains s "nat" then "nat"
  else "service"

/-- The exact set of ENI name shapes listed by the claim about
`isSelfGeneratedName` for the eni kind, written from the claim's words. -/
def eniClaimShape (name : String) : Prop :=
  name = "unattached-eni" ∨
  (∃ t ∈ (["service", "attached", "lambda", "rds", "elasticache", "elb", "nat"] : List String),
    ∃ id, name = t ++ "-" ++ id ++ "-eni") ∨
  (goContains name "-attach-" = true ∧ goEndsWith name "-eni" = true) ∨
  (goStartsWith name "eni-" = true ∧ 21 ≤ name.length ∧ name.length ≤ 25) ∨
  name = "" ∨
  goStartsWith name "Network interface" = true ∨
  (goContains name "primary" = true ∧ goContains name "interface" = true)

/-- The amended list of ENI name shapes: as the claim's list, but with the
`{service-type}-{id}-eni` shapes read as prefix/suffix tests (so the
`-eni` suffix may overlap the leading `{service-type}-`), and with the
additional bare prefixes `{service-type}-eni-attach-` and
`{service-type}-ela-attach-` (no `-eni` suffix required) that the code
also recognises. -/
def eniAmendedShape (name : String) : Bool :=
  name == "unattached-eni" ||
  (goStartsWith name "service-" && goEndsWith name "-eni") ||
  (goStartsWith name "attached-" && goEndsWith name "-eni") ||
  (goStartsWith name "lambda-" && goEndsWith name "-eni") ||
  (goStartsWith name "rds-" && goEndsWith name "-eni") ||
  (goStartsWith name "elasticache-" && goEndsWith name "-eni") ||
  (goStartsWith name "elb-" && goEndsWith name "-eni") ||
  (goStartsWith name "nat-" && goEndsWith name "-eni") ||
  goStartsWith name "rds-eni-attach-" ||
  goStartsWith name "elasticache-eni-attach-" ||
  goStartsWith name "elb-eni-attach-" ||
  goStartsWith name "lambda-eni-attach-" ||
  goStartsWith name "nat-eni-attach-" ||
  goStartsWith name "service-eni-attach-" ||
  goStartsWith name "rds-ela-attach-" ||
  goStartsWith name "elasticache-ela-attach-" ||
  goStartsWith name "elb-ela-attach-" ||
  goStartsWith name "lambda-ela-attach-" ||
  goStartsWith name "nat-ela-attach-" ||
  goStartsWith name "service-ela-attach-" ||
  (goContains name "-attach-" && goEndsWith name "-eni") ||
  (goStartsWith name "eni-" && decide (21 ≤ name.length) && decide (name.length ≤ 25)) ||
  name == "" ||
  goStartsWith name "Network interface" ||
  (goContains name "primary" && goContains name "interface")

/-- The data of a concatenation is the concatenation of the data. -/
theorem strDataAppend (a b : String) : (a ++ b).data = a.data ++ b.data := by
  cases a; cases b; rfl

/-- A list always starts with itself followed by anything. -/
theorem listStartsWithApp (p rest : List Char) : listStartsWith p (p ++ rest) = true := by
  induction p with
  | nil => rfl
  | cons c cs ih => simp [listStartsWith, ih]

/-- Appending `-eni` always yields a string ending in `-eni`. -/
theorem goEndsWithEniApp (s : String) : goEndsWith (s ++ "-eni") "-eni" = true := by
  show listStartsWith ("-eni".data.reverse) ((s ++ "-eni").data.reverse) = true
  rw [strDataAppend]
  show listStartsWith ['i', 'n', 'e', '-'] ((s.data ++ ['-', 'e', 'n', 'i']).reverse) = true
  rw [List.reverse_append]
  exact listStartsWithApp ['i', 'n', 'e', '-'] s.data.reverse

/-- A string whose data is nonempty is not the empty string. -/
theorem strNeEmptyOfData {s : String} (h : s.data ≠ []) : s ≠ "" := by
  intro he
  exact h (by simp [he])

/-- A concatenation whose right part is nonempty is nonempty. -/
theorem strAppendNeEmptyRight (s t : String) (h : t ≠ "") : s ++ t ≠ "" := by
  apply strNeEmptyOfData
  rw [strDataAppend]
  intro hd
  rcases List.append_eq_nil.mp hd with ⟨_, h2⟩
  exact h (by cases t with | mk d => simp_all)

/-- A concatenation whose left part is nonempty is nonempty. -/
theorem strAppendNeEmptyLeft (s t : String) (h : s ≠ "") : s ++ t ≠ "" := by
  apply strNeEmptyOfData
  rw [strDataAppend]
  intro hd
  rcases List.append_eq_nil.mp hd with ⟨h1, _⟩
  exact h (by cases s with | mk d => simp_all)

theorem elbScanZip : (l : List String) → elbScan l =
    ((l.zip l.tail).findSome? (fun pq =>
      if toLowerStr pq.1 == "elb" then elbTokenResult pq.2 else none)).getD ""
  | [] => rfl
  | [_] => rfl
  | p :: q :: rest => by
    have ih := elbScanZip (q :: rest)
    simp only [elbScan, List.tail_cons, List.zip_cons_cons, List.findSome?_cons]
    by_cases hp : toLowerStr p == "elb"
    · simp only [hp, if_pos rfl, elbTokenResult]
      by_cases hq : 2 ≤ (goSplitChar q '/').length
      · simp [hq]
      · simp only [if_neg hq, hq]
        simpa [elbTokenResult] using ih
    · simp only [hp]
      simp only [Bool.not_eq_true] at hp
      simpa [hp, elbTokenResult] using ih

/-- C2: for every description string, `extractELBName` splits the
description on whitespace, finds a token case-insensitively equal to
`elb` whose immediately following token splits on `/` into at least two
segments, and returns that token's zero-based segment 1, and otherwise
returns the empty string; in particular the three listed example
descriptions evaluate as the claim states. -/
theorem c2_extract_elb_name :
    (∀ d : String, extractELBName d = extractELBNameSpec d) ∧
    extractELBName "ELB app/canvas-lb-sbx/35b9ec36d721abfe" = "canvas-lb-sbx" ∧
    extractELBName "Not an ELB description" = "" ∧
    extractELBName "" = "" := by
  refine ⟨fun d => ?_, by decide, by decide, by decide⟩
  simpa [extractELBName, extractELBNameSpec] using elbScanZip (goFields d)

/-- C3: for the volume kind, a self-generated name encoding unattached
(exactly `unattached` or with leading `unattached-`) is judged still
valid by `isQuickTagNameStillValid` iff the current state is `available`
or the extra info is `unattached`, and every other self-generated volume
name is judged valid for every state and extra info; the two listed
example evaluations hold. -/
theorem c3_volume_unattached_validity :
    (∀ name st extra : String, isQuickTagCreatedName name "volume" = true →
      (((name == "unattached" || goStartsWith name "unattached-") = true →
        isQuickTagNameStillValid name "volume" st extra =
          (st == "available" || extra == "unattached")) ∧
       ((name == "unattached" || goStartsWith name "unattached-") = false →
        isQuickTagNameStillValid name "volume" st extra = true))) ∧
    isQuickTagNameStillValid "unattached" "volume" "in-use" "/dev/xvda1" = false ∧
    isQuickTagNameStillValid "unattached" "volume" "available" "unattached" = true := by
  refine ⟨fun name st extra hself => ⟨fun henc => ?_, fun henc => ?_⟩, by decide, by decide⟩
  · simp only [isQuickTagNameStillValid, hself, Bool.not_true, Bool.false_eq_true,
      if_false, reduceIte]
    rcases Bool.or_eq_true_iff.mp henc with h1 | h2
    · simp [h1]
    · by_cases h1 : name == "unattached" <;> simp [h1, h2]
  · simp only [Bool.or_eq_false_iff] at henc
    simp [isQuickTagNameStillValid, hself, henc.1, henc.2]

/-- C3 witness: the general statement applied at the concrete name
`unattached` with state `in-use` and extra info `/dev/xvda1`. -/
theorem c3_witness :
    isQuickTagCreatedName "unattached" "volume" = true ∧
    isQuickTagNameStillValid "unattached" "volume" "in-use" "/dev/xvda1" =
      (("in-use" == "available" || "/dev/xvda1" == "unattached") : Bool) :=
  ⟨by decide,
   (c3_volume_unattached_validity.1 "unattached" "in-use" "/dev/xvda1" (by decide)).1 (by decide)⟩

/-- C10: for the eni kind, every name that is not exactly
`unattached-eni`, does not start with `unattached-`, and does not contain
`-eni` is judged still valid for every state and extra info, and an ENI
whose present Name tag carries such a name is never placed in the
candidate set; the empty string, bare ENI ids, `Network interface` names
and `primary`/`interface` names are of this kind and self-generated. -/
theorem c10_eni_nonstale_names :
    (∀ (name st extra : String) (eni : NetworkInterface),
      name ≠ "unattached-eni" → goStartsWith name "unattached-" = false →
      goContains name "-eni" = false →
      (isQuickTagNameStillValid name "eni" st extra = true ∧
       (findNameTag eni.tagSet = some name → scanENI eni = none))) ∧
    (("" : String) ≠ "unattached-eni" ∧ goStartsWith "" "unattached-" = false ∧
      goContains "" "-eni" = false ∧ isQuickTagCreatedName "" "eni" = true) ∧
    (("eni-1234567890123456789" : String) ≠ "unattached-eni" ∧
      goStartsWith "eni-1234567890123456789" "unattached-" = false ∧
      goContains "eni-1234567890123456789" "-eni" = false ∧
      isQuickTagCreatedName "eni-1234567890123456789" "eni" = true) ∧
    (("Network interface" : String) ≠ "unattached-eni" ∧
      goStartsWith "Network interface" "unattached-" = false ∧
      goContains "Network interface" "-eni" = false ∧
      isQuickTagCreatedName "Network interface" "eni" = true) ∧
    (("primary network interface" : String) ≠ "unattached-eni" ∧
      goStartsWith "primary network interface" "unattached-" = false ∧
      goContains "primary network interface" "-eni" = false ∧
      isQuickTagCreatedName "primary network interface" "eni" = true) := by
  refine ⟨fun name st extra eni hne hpre hinf => ?_, by decide, by decide, by decide, by decide⟩
  have hbeq : (name == "unattached-eni") = false := by
    simpa using hne
  have hvalid : ∀ st' ex : String, isQuickTagNameStillValid name "eni" st' ex = true := by
    intro st' ex
    by_cases hself : isQuickTagCreatedName name "eni"
    · simp [isQuickTagNameStillValid, hself, hbeq, hpre, hinf]
    · simp only [Bool.not_eq_true] at hself
      simp [isQuickTagNameStillValid, hself]
  refine ⟨hvalid st extra, fun hname => ?_⟩
  simp [scanENI, hname, hvalid, Option.getD_some]

/-- C10 witness: the general statement applied at the bare ENI id
`eni-1234567890123456789` carried as the Name tag of a concrete attached
ENI. -/
theorem c10_witness :
    isQuickTagNameStillValid "eni-1234567890123456789" "eni" "in-use" "attached-to-i-1" = true ∧
    scanENI ⟨"eni-1", "in-use", none, some ⟨some "i-1", none⟩,
      [(some "Name", some "eni-1234567890123456789")]⟩ = none := by
  have h := (c10_eni_nonstale_names.1 "eni-1234567890123456789" "in-use" "attached-to-i-1"
    ⟨"eni-1", "in-use", none, some ⟨some "i-1", none⟩,
      [(some "Name", some "eni-1234567890123456789")]⟩
    (by decide) (by decide) (by decide))
  exact ⟨h.1, h.2 (by decide)⟩

/-- C4 counterexample: `isQuickTagCreatedName` accepts the eni name
`rds-eni-attach-123`, which matches none of the shapes listed by the
claim (it does not end in `-eni`, so it is neither of the
`{service-type}-{id}-eni` form nor of the `-attach-`/`-eni` form). -/
theorem c4_counterexample :
    isQuickTagCreatedName "rds-eni-attach-123" "eni" = true ∧
    ¬ eniClaimShape "rds-eni-attach-123" := by
  refine ⟨by decide, ?_⟩
  intro h
  rcases h with h | ⟨t, ht, id, heq⟩ | ⟨h1, h2⟩ | ⟨h1, h2, h3⟩ | h | h | ⟨h1, h2⟩
  · exact absurd h (by decide)
  · have hend := goEndsWithEniApp ((t ++ "-") ++ id)
    rw [← heq] at hend
    exact absurd hend (by decide)
  · exact absurd h2 (by decide)
  · exact absurd h1 (by decide)
  · exact absurd h (by decide)
  · exact absurd h (by decide)
  · exact absurd h1 (by decide)

/-- C4 amended: for the eni kind `isQuickTagCreatedName` returns true
exactly for the amended shape list (the claim's list with the
`{service-type}-{id}-eni` shapes read as possibly-overlapping
prefix/suffix tests and with the twelve additional bare
`{service-type}-eni-attach-` / `{service-type}-ela-attach-` prefixes);
the empty string is self-generated for eni and not for instance or
volume. -/
theorem c4_eni_self_generated_shapes :
    (∀ name : String, isQuickTagCreatedName name "eni" = eniAmendedShape name) ∧
    isQuickTagCreatedName "" "eni" = true ∧
    isQuickTagCreatedName "" "instance" = false ∧
    isQuickTagCreatedName "" "volume" = false := by
  refine ⟨fun name => ?_, by decide, by decide, by decide⟩
  rfl

/-- C1 counterexample: a terminated instance with no Name tag satisfies
the claim's needs-tagging gate but is not included in the candidate set,
so inclusion is not equivalent to the gate as the claim states it. -/
theorem c1_counterexample :
    ¬ ((findUntaggedInstances [⟨"i-1", "terminated", some "ami-1", []⟩]
          (fun _ => none) ≠ []) ↔
       claimNeedsTagging (findNameTag ([] : List (Option String × Option String)))
          "instance" "terminated" "ami-1" = true) := by
  decide

/-- C1 amended: for volumes and ENIs a scanned resource enters the
candidate set iff it has no current name or its current name is
self-generated and no longer valid; for instances the same gate applies
but inclusion additionally requires that the instance is not terminated
and carries an AMI id. -/
theorem c1_candidate_gate :
    ∀ (i : InstanceRec) (v : VolumeRec) (e : NetworkInterface),
      ((scanInstance i).isSome =
        (!(i.stateName == "terminated") && i.imageId.isSome &&
          claimNeedsTagging (findNameTag i.tags) "instance" i.stateName (i.imageId.getD ""))) ∧
      ((scanVolume v).isSome =
        claimNeedsTagging (findNameTag v.tags) "volume" v.state (getVolumeMountPoint v)) ∧
      ((scanENI e).isSome =
        claimNeedsTagging (findNameTag e.tagSet) "eni" e.status (getENIAttachmentInfo e)) := by
  intro i v e
  refine ⟨?_, ?_, ?_⟩
  · simp only [scanInstance, claimNeedsTagging]
    cases hs : (i.stateName == "terminated") with
    | true => simp
    | false =>
      cases hn : findNameTag i.tags with
      | none =>
        cases him : i.imageId with
        | none => simp
        | some ami => simp
      | some nm =>
        cases him : i.imageId with
        | none =>
          by_cases hA : isQuickTagCreatedName nm "instance" <;>
            by_cases hB : isQuickTagNameStillValid nm "instance" i.stateName
              ((none : Option String).getD "") <;> simp_all
        | some ami =>
          by_cases hA : isQuickTagCreatedName nm "instance" <;>
            by_cases hB : isQuickTagNameStillValid nm "instance" i.stateName ami <;> simp_all
  · simp only [scanVolume, claimNeedsTagging]
    cases hn : findNameTag v.tags with
    | none => simp
    | some nm =>
      by_cases hA : isQuickTagCreatedName nm "volume" <;>
        by_cases hB : isQuickTagNameStillValid nm "volume" v.state (getVolumeMountPoint v) <;>
          simp_all
  · simp only [scanENI, claimNeedsTagging]
    cases hn : findNameTag e.tagSet with
    | none => simp
    | some nm =>
      by_cases hA : isQuickTagCreatedName nm "eni" <;>
        by_cases hB : isQuickTagNameStillValid nm "eni" e.status (getENIAttachmentInfo e) <;>
          simp_all

/-- C7 counterexample: with a provider AMI-name map that maps the
instance's AMI to the empty string, the surfaced candidate record has an
empty `SuggestedName`, contradicting the claim's unconditional
non-emptiness over every provider-returned data. -/
theorem c7_counterexample :
    findUntaggedInstances [⟨"i-1", "running", some "ami-1", []⟩]
        (fun a => if a == "ami-1" then some "" else none)
      = [⟨"i-1", "instance", "", "", "running", "ami-1"⟩] ∧
    (⟨"i-1", "instance", "", "", "running", "ami-1"⟩ : ResourceInfo).SuggestedName = "" := by
  exact ⟨by decide, rfl⟩

/-- C7 amended: provided every AMI name in the lookup map is non-empty
(the instance branch copies the AMI name verbatim), every record
surfaced by any of the three finders has a non-empty `SuggestedName`;
the volume and ENI branches need no side condition. -/
theorem c7_suggested_name_nonempty :
    ∀ (amiNames instNames attNames : String → Option String)
      (irecs : List InstanceRec) (vrecs : List VolumeRec) (erecs : List NetworkInterface),
      (∀ a n, amiNames a = some n → n ≠ "") →
      (∀ r ∈ findUntaggedInstances irecs amiNames, r.SuggestedName ≠ "") ∧
      (∀ r ∈ findUntaggedVolumes vrecs instNames, r.SuggestedName ≠ "") ∧
      (∀ r ∈ findUntaggedENIs erecs attNames, r.SuggestedName ≠ "") := by
  intro amiNames instNames attNames irecs vrecs erecs hami
  refine ⟨?_, ?_, ?_⟩
  · intro r hr
    simp only [findUntaggedInstances, List.mem_map] at hr
    obtain ⟨r0, _, rfl⟩ := hr
    simp only [suggestInstance]
    cases ha : amiNames r0.Extra with
    | some n => simpa using hami _ _ ha
    | none =>
      simpa using strAppendNeEmptyLeft "instance-" r0.Extra (by decide)
  · intro r hr
    simp only [findUntaggedVolumes, List.mem_filterMap] at hr
    obtain ⟨v, _, hv⟩ := hr
    cases hscan : scanVolume v with
    | none => simp [hscan] at hv
    | some r0 =>
      simp only [hscan, Option.map_some', Option.some_inj] at hv
      subst hv
      simp only [suggestVolume]
      by_cases hid : getVolumeInstanceID v != ""
      · simp only [hid, if_pos rfl]
        cases hn : instNames (getVolumeInstanceID v) with
        | some n =>
          simpa using strAppendNeEmptyLeft _ r0.Extra
            (strAppendNeEmptyRight _ ") " (by decide))
        | none =>
          simpa using strAppendNeEmptyLeft _ r0.Extra
            (strAppendNeEmptyRight _ " " (by decide))
      · simp only [Bool.not_eq_true] at hid
        simp [hid]
  · intro r hr
    simp only [findUntaggedENIs, List.mem_map] at hr
    obtain ⟨r0, _, rfl⟩ := hr
    simp only [suggestENI]
    by_cases h1 : goStartsWith r0.Extra "attached-to-"
    · simp only [h1, if_pos rfl]
      cases hn : attNames (goTrimStart r0.Extra "attached-to-") with
      | some n => simpa using strAppendNeEmptyRight n "-eni" (by decide)
      | none => simpa using strAppendNeEmptyRight _ "-eni" (by decide)
    · simp only [h1]
      by_cases h2 : goStartsWith r0.Extra "attached-"
      · simp only [h2, if_pos rfl, Bool.false_eq_true, if_false]
        by_cases h3 : 3 ≤ (goSplitN3 r0.Extra '-').length
        · simp only [h3, if_pos rfl]
          by_cases h4 : (goSplitN3 r0.Extra '-').getD 1 "" == "elb"
          · simp only [h4, if_pos rfl]
            simpa using strAppendNeEmptyRight _ "-eni" (by decide)
          · simp only [h4]
            simpa using strAppendNeEmptyRight _ "-eni" (by decide)
        · simp only [h3]
          simpa using strAppendNeEmptyRight _ "-eni" (by decide)
      · simp [h2]

/-- C7 witness: the instance part applied to a concrete one-instance
scan whose AMI lookup fails, yielding the non-empty fallback name. -/
theorem c7_witness :
    (⟨"i-1", "instance", "", "instance-ami-1", "running", "ami-1"⟩ :
      ResourceInfo).SuggestedName ≠ "" := by
  have h := c7_suggested_name_nonempty (fun _ => none) (fun _ => none) (fun _ => none)
    [⟨"i-1", "running", some "ami-1", []⟩] [] []
    (fun a n h => by simp at h)
  exact h.1 _ (by decide)

/-- C5: `getENIAttachmentInfo` returns `unattached` for an ENI with no
attachment, `attached-to-<instanceId>` for an instance attachment,
`attached-unknown` when neither id is present, and for a service
attachment emits `attached-<type>-<attachmentId>` with the type inferred
by the claimed case-insensitive precedence (lambda, rds,
elasticache|cache, elb|load balancer, nat, default service), except that
a successful ELB-name extraction yields `attached-elb-<lbName>`; a
description with both `lambda` and `elb` yields lambda and one with
`cache` and `elb` yields elasticache. -/
theorem c5_eni_attachment_resolution :
    (∀ e : NetworkInterface, e.attachment = none → getENIAttachmentInfo e = "unattached") ∧
    (∀ (e : NetworkInterface) (att : ENIAttachment) (iid : String),
      e.attachment = some att → att.instanceId = some iid →
      getENIAttachmentInfo e = "attached-to-" ++ iid) ∧
    (∀ (e : NetworkInterface) (att : ENIAttachment),
      e.attachment = some att → att.instanceId = none → att.attachmentId = none →
      getENIAttachmentInfo e = "attached-unknown") ∧
    (∀ (e : NetworkInterface) (att : ENIAttachment) (aid : String),
      e.attachment = some att → att.instanceId = none → att.attachmentId = some aid →
      getENIAttachmentInfo e =
        (match e.description with
         | none => "attached-service-" ++ aid
         | some d =>
           if inferServiceType d == "elb" && extractELBName d != "" then
             "attached-elb-" ++ extractELBName d
           else "attached-" ++ inferServiceType d ++ "-" ++ aid)) ∧
    getENIAttachmentInfo ⟨"eni-1", "in-use", some "lambda elb", some ⟨none, some "att-1"⟩, []⟩
      = "attached-lambda-att-1" ∧
    getENIAttachmentInfo ⟨"eni-1", "in-use", some "cache elb", some ⟨none, some "att-1"⟩, []⟩
      = "attached-elasticache-att-1" := by
  refine ⟨?_, ?_, ?_, ?_, by decide, by decide⟩
  · intro e h
    simp [getENIAttachmentInfo, h]
  · intro e att iid ha hi
    simp [getENIAttachmentInfo, ha, hi]
  · intro e att ha hi hd
    simp [getENIAttachmentInfo, ha, hi, hd]
  · intro e att aid ha hi hd
    simp only [getENIAttachmentInfo, ha, hi, hd]
    cases hdesc : e.description with
    | none => rfl
    | some d =>
      simp only [inferServiceType]
      by_cases h1 : goContains (toLowerStr d) "lambda"
      · simp [h1]
      · simp only [h1, Bool.false_eq_true, if_false, reduceIte]
        by_cases h2 : goContains (toLowerStr d) "rds"
        · simp [h2]
        · simp only [h2, Bool.false_eq_true, if_false, reduceIte]
          by_cases h3 : (goContains (toLowerStr d) "elasticache" || goContains (toLowerStr d) "cache")
          · simp [h3]
          · simp only [h3, Bool.false_eq_true, if_false, reduceIte]
            by_cases h4 : (goContains (toLowerStr d) "elb" || goContains (toLowerStr d) "load balancer")
            · simp only [h4, if_pos rfl, reduceIte]
              by_cases h5 : extractELBName d != ""
              · simp [h5]
              · simp only [h5, Bool.false_eq_true, if_false]
                simp only [bne, Bool.not_eq_true] at h5
                simp [h5]
            · simp only [h4, Bool.false_eq_true, if_false, reduceIte]
              by_cases h6 : goContains (toLowerStr d) "nat"
              · simp [h6]
              · simp [h6]

/-- C5 witness: the unattached and instance-attachment parts applied to
concrete ENIs. -/
theorem c5_witness :
    getENIAttachmentInfo ⟨"eni-1", "available", none, none, []⟩ = "unattached" ∧
    getENIAttachmentInfo ⟨"eni-2", "in-use", none, some ⟨some "i-9", none⟩, []⟩
      = "attached-to-" ++ "i-9" := by
  exact ⟨c5_eni_attachment_resolution.1 _ rfl,
    (c5_eni_attachment_resolution.2.1 _ ⟨some "i-9", none⟩ "i-9" rfl rfl)⟩

/-- Strings with equal data are equal. -/
theorem strExt {s t : String} (h : s.data = t.data) : s = t := by
  cases s
  cases t
  simp only at h
  rw [h]

/-- String concatenation is associative. -/
theorem strAppendAssoc (a b c : String) : (a ++ b) ++ c = a ++ (b ++ c) :=
  strExt (by simp [strDataAppend])

/-- A concatenation starts with its left part. -/
theorem goStartsWithApp (p t : String) : goStartsWith (p ++ t) p = true := by
  show listStartsWith p.data (p ++ t).data = true
  rw [strDataAppend]
  exact listStartsWithApp p.data t.data

/-- Trimming the leading part of a concatenation leaves the right part. -/
theorem goTrimStartApp (p t : String) : goTrimStart (p ++ t) p = t := by
  simp only [goTrimStart, goStartsWithApp, if_pos rfl, strDataAppend]
  exact strExt (by simp)

/-- With one cut left, a list whose head segment is separator-free splits
into that segment and the remainder. -/
theorem splitAuxTail (tyl : List Char) (idl acc : List Char) (h : '-' ∉ tyl) :
    splitNCharAux '-' 1 (tyl ++ '-' :: idl) acc = [acc.reverse ++ tyl, idl] := by
  induction tyl generalizing acc with
  | nil => simp [splitNCharAux]
  | cons c rest ih =>
    have hne : c ≠ '-' := fun hcc => h (by simp [hcc])
    have hc : (c == '-') = false := by simpa using hne
    have hrest : '-' ∉ rest := fun hm => h (List.mem_cons_of_mem _ hm)
    simp only [List.cons_append, splitNCharAux, hc, Bool.false_eq_true, if_false,
      List.append_eq, Nat.zero_add]
    rw [ih _ hrest]
    simp

/-- With one cut left, a separator-free list is returned whole. -/
theorem splitAuxNoSep (idl acc : List Char) (h : '-' ∉ idl) :
    splitNCharAux '-' 1 idl acc = [acc.reverse ++ idl] := by
  induction idl generalizing acc with
  | nil => simp [splitNCharAux]
  | cons c rest ih =>
    have hne : c ≠ '-' := fun hcc => h (by simp [hcc])
    have hc : (c == '-') = false := by simpa using hne
    have hrest : '-' ∉ rest := fun hm => h (List.mem_cons_of_mem _ hm)
    simp only [splitNCharAux, hc, Bool.false_eq_true, if_false, List.append_eq, Nat.zero_add]
    rw [ih _ hrest]
    simp

/-- `SplitN(_, "-", 3)` on `attached-<type>-<id>` with a separator-free
type yields exactly the three expected fields. -/
theorem goSplitN3Attached (ty id : String) (h : '-' ∉ ty.data) :
    goSplitN3 ("attached-" ++ ty ++ "-" ++ id) '-' = ["attached", ty, id] := by
  have hdata : ("attached-" ++ ty ++ "-" ++ id).data =
      "attached-".data ++ (ty.data ++ '-' :: id.data) := by
    simp [strDataAppend]
  simp only [goSplitN3, hdata]
  have hstep : splitNCharAux '-' 2 ("attached-".data ++ (ty.data ++ '-' :: id.data)) []
      = "attached".data :: splitNCharAux '-' 1 (ty.data ++ '-' :: id.data) [] := rfl
  rw [hstep, splitAuxTail _ _ _ h]
  simp only [List.reverse_nil, List.nil_append, List.map_cons, List.map_nil]

/-- `SplitN(_, "-", 3)` on `attached-<id>` with a separator-free id yields
exactly two fields. -/
theorem goSplitN3AttachedTwo (id : String) (h : '-' ∉ id.data) :
    goSplitN3 ("attached-" ++ id) '-' = ["attached", id] := by
  have hdata : ("attached-" ++ id).data = "attached-".data ++ id.data := strDataAppend _ _
  simp only [goSplitN3, hdata]
  have hstep : splitNCharAux '-' 2 ("attached-".data ++ id.data) []
      = "attached".data :: splitNCharAux '-' 1 id.data [] := rfl
  rw [hstep, splitAuxNoSep _ _ h]
  simp only [List.reverse_nil, List.nil_append, List.map_cons, List.map_nil]

/-- C6: for an extra-info token of the form `attached-<type>-<id>`
(type separator-free, not an `attached-to-` token) the suggestion engine
produces `<id>-eni` and extra `elb-<id>` when the type is `elb`, and
otherwise `<type>-<id>-eni` and `<type>-attachment-<id>`; when the split
yields fewer than three parts the `attached-` leading part is stripped as
a single id with `service-<id>-eni` and `service-attachment-<id>`; and
the end-to-end ELB scenario of the claim resolves exactly as stated. -/
theorem c6_eni_suggestion :
    (∀ (attNames : String → Option String) (r : ResourceInfo) (ty id : String),
      r.Extra = "attached-" ++ ty ++ "-" ++ id → '-' ∉ ty.data →
      goStartsWith r.Extra "attached-to-" = false →
      suggestENI attNames r =
        (if ty == "elb" then
          { r with SuggestedName := id ++ "-eni", Extra := "elb-" ++ id }
        else
          { r with SuggestedName := ty ++ "-" ++ id ++ "-eni",
                   Extra := ty ++ "-attachment-" ++ id })) ∧
    (∀ (attNames : String → Option String) (r : ResourceInfo) (id : String),
      r.Extra = "attached-" ++ id → '-' ∉ id.data →
      goStartsWith r.Extra "attached-to-" = false →
      suggestENI attNames r =
        { r with SuggestedName := "service-" ++ id ++ "-eni",
                 Extra := "service-attachment-" ++ id }) ∧
    findUntaggedENIs
        [⟨"eni-1", "in-use", some "ELB net/my-lb/1234567890abcdef",
          some ⟨none, some "ela-attach-01cacbdcc2dd3038b"⟩, []⟩]
        (fun _ => none)
      = [⟨"eni-1", "eni", "", "my-lb-eni", "in-use", "elb-my-lb"⟩] := by
  refine ⟨?_, ?_, by decide⟩
  · intro attNames r ty id hextra hty hto
    have hstart : goStartsWith r.Extra "attached-" = true := by
      rw [hextra, strAppendAssoc, strAppendAssoc]
      exact goStartsWithApp "attached-" _
    have hsplit : goSplitN3 r.Extra '-' = ["attached", ty, id] := by
      rw [hextra]
      exact goSplitN3Attached ty id hty
    simp only [suggestENI, hto, Bool.false_eq_true, if_false, hstart, if_pos rfl, hsplit]
    by_cases hel : ty == "elb" <;> simp [hel]
  · intro attNames r id hextra hid hto
    have hstart : goStartsWith r.Extra "attached-" = true := by
      rw [hextra]
      exact goStartsWithApp "attached-" _
    have hsplit : goSplitN3 r.Extra '-' = ["attached", id] := by
      rw [hextra]
      exact goSplitN3AttachedTwo id hid
    have htrim : goTrimStart r.Extra "attached-" = id := by
      rw [hextra]
      exact goTrimStartApp "attached-" id
    simp only [suggestENI, hto, Bool.false_eq_true, if_false, hstart, if_pos rfl, hsplit, htrim]
    simp

/-- C6 witness: the general part applied at the concrete token
`attached-rds-abc`. -/
theorem c6_witness :
    suggestENI (fun _ => none) ⟨"eni-9", "eni", "", "", "in-use", "attached-rds-abc"⟩ =
      ⟨"eni-9", "eni", "", "rds-abc-eni", "in-use", "rds-attachment-abc"⟩ := by
  have h := c6_eni_suggestion.1 (fun _ => none)
    ⟨"eni-9", "eni", "", "", "in-use", "attached-rds-abc"⟩ "rds" "abc" rfl (by decide) (by decide)
  simpa using h

/-- C9: `applyTags` processes the list in order and stops at the first
resource whose tag write fails, returning it as the failure with all
earlier (successful) writes retained and no later resource attempted,
independently of the history-append outcomes; when every tag write
succeeds the whole list is processed and history-append failures only
produce warnings without aborting. -/
theorem c9_apply_tags_short_circuit :
    (∀ (f g : ResourceInfo → Bool) (xs ys : List ResourceInfo) (r : ResourceInfo),
      (∀ x ∈ xs, f x = true) → f r = false →
      applyTags f g (xs ++ r :: ys) =
        ⟨xs, xs.filter g, xs.filter (fun x => !g x), some r⟩) ∧
    (∀ (f g : ResourceInfo → Bool) (rs : List ResourceInfo),
      (∀ x ∈ rs, f x = true) →
      applyTags f g rs = ⟨rs, rs.filter g, rs.filter (fun x => !g x), none⟩) := by
  constructor
  · intro f g xs ys r hxs hr
    induction xs with
    | nil => simp [applyTags, hr]
    | cons x rest ih =>
      have hx : f x = true := hxs x (List.mem_cons_self _ _)
      have hrest : ∀ y ∈ rest, f y = true := fun y hy => hxs y (List.mem_cons_of_mem _ hy)
      simp only [List.cons_append, applyTags, hx, if_pos rfl]
      by_cases hg : g x <;> simp [List.filter_cons, hg, ih hrest]
  · intro f g rs hrs
    induction rs with
    | nil => rfl
    | cons x rest ih =>
      have hx : f x = true := hrs x (List.mem_cons_self _ _)
      have hrest : ∀ y ∈ rest, f y = true := fun y hy => hrs y (List.mem_cons_of_mem _ hy)
      simp only [applyTags, hx, if_pos rfl]
      by_cases hg : g x <;> simp [List.filter_cons, hg, ih hrest]

/-- C9 witness: a concrete three-resource run whose second tag write
fails while every history append fails, stopping after the first
resource. -/
theorem c9_witness :
    applyTags (fun x => x.ID != "i-2") (fun _ => false)
        [⟨"i-1", "instance", "", "a", "running", ""⟩,
         ⟨"i-2", "instance", "", "b", "running", ""⟩,
         ⟨"i-3", "instance", "", "c", "running", ""⟩] =
      ⟨[⟨"i-1", "instance", "", "a", "running", ""⟩],
       [], [⟨"i-1", "instance", "", "a", "running", ""⟩],
       some ⟨"i-2", "instance", "", "b", "running", ""⟩⟩ := by
  have h := c9_apply_tags_short_circuit.1 (fun x => x.ID != "i-2") (fun _ => false)
    [⟨"i-1", "instance", "", "a", "running", ""⟩]
    [⟨"i-3", "instance", "", "c", "running", ""⟩]
    ⟨"i-2", "instance", "", "b", "running", ""⟩
    (by decide) (by decide)
  simpa using h

/-- The undo loop classifies every attempted entry into exactly one of
the three outcome counters. -/
theorem undoStepSum (p : String → String → UndoOutcome) :
    ∀ (l : List TagHistoryEntry) (st : UndoLoopState),
      (l.foldl (undoStep p) st).successCount + (l.foldl (undoStep p) st).notFoundCount +
        (l.foldl (undoStep p) st).errorCount =
      st.successCount + st.notFoundCount + st.errorCount + l.length := by
  intro l
  induction l with
  | nil => intro st; simp
  | cons a rest ih =>
    intro st
    simp only [List.foldl_cons, List.length_cons]
    rw [ih]
    cases hp : p a.resource a.oldValue <;> simp [undoStep, hp] <;> omega

/-- C8: undo selects the run id of the most recent not-undone history
entry, attempts every not-undone entry of that run (each attempt
classified into exactly one of the success / resource-gone / other-error
counters, with no short-circuit), marks every such entry undone
unconditionally, and persists exactly once; an apply-then-undo round trip
restores the recorded old value, and undoing a non-empty fully-undone
history fails with the `no undone runs found` error. -/
theorem c8_undo_behaviour :
    (∀ (h : List TagHistoryEntry) (p : String → String → UndoOutcome)
        (c : String → Option String),
      h ≠ [] → (∀ a ∈ h, a.runId ≠ "") → (∃ a ∈ h, a.undone = false) →
      ∃ res : UndoResult, undoLastRun h true p c = .ok res ∧
        res.saves = 1 ∧
        res.attempted = h.filter (fun a => a.runId == findLastRunId h && !a.undone) ∧
        res.successCount + res.notFoundCount + res.errorCount = res.attempted.length ∧
        res.history = h.map (fun a =>
          if a.runId == findLastRunId h && !a.undone then { a with undone := true } else a) ∧
        (∀ a ∈ res.history, a.runId = findLastRunId h → a.undone = true)) ∧
    (∀ (h : List TagHistoryEntry) (p : String → String → UndoOutcome)
        (c : String → Option String) (confirmed : Bool),
      h ≠ [] → (∀ a ∈ h, a.undone = true) →
      undoLastRun h confirmed p c = .error "no undone runs found") ∧
    ((undoLastRun [⟨"acct", "i-1", "X", "Y", "t0", "run-1", false⟩] true
        (fun _ _ => .success) (fun x => if x == "i-1" then some "Y" else none)).toOption.map
          (fun res => (res.cloud "i-1", res.history, res.saves)) =
      some (some "X", [⟨"acct", "i-1", "X", "Y", "t0", "run-1", true⟩], 1)) ∧
    (undoLastRun [⟨"acct", "i-1", "X", "Y", "t0", "run-1", true⟩] true
        (fun _ _ => .success) (fun x => if x == "i-1" then some "X" else none) =
      .error "no undone runs found") := by
  refine ⟨?_, ?_, rfl, rfl⟩
  · intro h p c hne hr hex
    have hsome : ((h.reverse).find? (fun a => !a.undone)).isSome := by
      rw [List.find?_isSome]
      obtain ⟨a, ha, hu⟩ := hex
      exact ⟨a, List.mem_reverse.mpr ha, by simp [hu]⟩
    obtain ⟨a0, hfind⟩ := Option.isSome_iff_exists.mp hsome
    have ha0mem : a0 ∈ h := List.mem_reverse.mp (List.mem_of_find?_eq_some hfind)
    have hu0 : (!a0.undone) = true := by
      have := List.find?_some hfind
      simpa using this
    have heqL : findLastRunId h = a0.runId := by simp [findLastRunId, hfind]
    have hlen0 : (h.length == 0) = false := by
      cases h with
      | nil => exact absurd rfl hne
      | cons x t => rfl
    have hL : (findLastRunId h == "") = false := by
      rw [heqL]
      simpa using hr a0 ha0mem
    have hmemfilter : a0 ∈ h.filter (fun a => a.runId == findLastRunId h && !a.undone) :=
      List.mem_filter.mpr ⟨ha0mem, by simp [heqL, hu0]⟩
    have hflen : ((h.filter (fun a => a.runId == findLastRunId h && !a.undone)).length == 0)
        = false := by
      cases hf : h.filter (fun a => a.runId == findLastRunId h && !a.undone) with
      | nil => rw [hf] at hmemfilter; cases hmemfilter
      | cons x xs => rfl
    have hrun : undoLastRun h true p c = .ok
        ⟨h.map (fun a =>
            if a.runId == findLastRunId h && !a.undone then { a with undone := true } else a),
         ((h.filter (fun a => a.runId == findLastRunId h && !a.undone)).foldl
            (undoStep p) ⟨c, 0, 0, 0⟩).cloud,
         1,
         h.filter (fun a => a.runId == findLastRunId h && !a.undone),
         ((h.filter (fun a => a.runId == findLastRunId h && !a.undone)).foldl
            (undoStep p) ⟨c, 0, 0, 0⟩).successCount,
         ((h.filter (fun a => a.runId == findLastRunId h && !a.undone)).foldl
            (undoStep p) ⟨c, 0, 0, 0⟩).notFoundCount,
         ((h.filter (fun a => a.runId == findLastRunId h && !a.undone)).foldl
            (undoStep p) ⟨c, 0, 0, 0⟩).errorCount⟩ := by
      simp only [undoLastRun, hlen0, hL, hflen, Bool.false_eq_true, if_false,
        Bool.not_true, reduceIte]
    refine ⟨_, hrun, rfl, rfl, ?_, rfl, ?_⟩
    · simpa using undoStepSum p (h.filter (fun a => a.runId == findLastRunId h && !a.undone))
        ⟨c, 0, 0, 0⟩
    · intro a ha hL'
      obtain ⟨b, hb, rfl⟩ := List.mem_map.mp ha
      by_cases hc : (b.runId == findLastRunId h && !b.undone) = true
      · simp [hc]
      · simp only [hc, Bool.false_eq_true, if_false] at hL' ⊢
        have hbeq : (b.runId == findLastRunId h) = true := by simp [hL']
        by_cases hbu : b.undone
        · exact hbu
        · exact absurd (by simp [hbeq, hbu]) hc
  · intro h p c confirmed hne hall
    have hlen0 : (h.length == 0) = false := by
      cases h with
      | nil => exact absurd rfl hne
      | cons x t => rfl
    have hnone : (h.reverse).find? (fun a => !a.undone) = none := by
      rw [List.find?_eq_none]
      intro x hx
      simp [hall x (List.mem_reverse.mp hx)]
    simp [undoLastRun, hlen0, findLastRunId, hnone]

/-- C8 witness: the general success part applied at a concrete
one-entry history, and the fully-undone part at a concrete undone
history. -/
theorem c8_witness :
    (∃ res : UndoResult,
      undoLastRun [⟨"acct", "i-1", "X", "Y", "t0", "run-1", false⟩] true
          (fun _ _ => .success) (fun _ => none) = .ok res ∧
        res.saves = 1 ∧
        res.attempted = [⟨"acct", "i-1", "X", "Y", "t0", "run-1", false⟩].filter
          (fun a => a.runId == findLastRunId [⟨"acct", "i-1", "X", "Y", "t0", "run-1", false⟩]
            && !a.undone) ∧
        res.successCount + res.notFoundCount + res.errorCount = res.attempted.length ∧
        res.history = [⟨"acct", "i-1", "X", "Y", "t0", "run-1", false⟩].map (fun a =>
          if a.runId == findLastRunId [⟨"acct", "i-1", "X", "Y", "t0", "run-1", false⟩]
              && !a.undone then { a with undone := true } else a) ∧
        (∀ a ∈ res.history,
          a.runId = findLastRunId [⟨"acct", "i-1", "X", "Y", "t0", "run-1", false⟩] →
            a.undone = true)) ∧
    undoLastRun [⟨"acct", "i-2", "O", "N", "t1", "run-2", true⟩] false
        (fun _ _ => .otherError) (fun _ => none) = .error "no undone runs found" :=
  ⟨c8_undo_behaviour.1 [⟨"acct", "i-1", "X", "Y", "t0", "run-1", false⟩]
      (fun _ _ => .success) (fun _ => none) (by decide) (by decide) (by decide),
   c8_undo_behaviour.2.1 [⟨"acct", "i-2", "O", "N", "t1", "run-2", true⟩]
      (fun _ _ => .otherError) (fun _ => none) false (by decide) (by decide)⟩
